import Mathlib

/-!
Shallow embedding of the template clause editor of `src/views/TemplateBuilder.tsx`
(LexCorp legal-agreement manager): the clause store, the selection-relative
text transforms, the undo/redo history manager and the markdown-lite renderer.

JavaScript strings are modelled as `List Char` (`Str`); `String.slice`
with in-range numeric arguments becomes `take`/`drop`.  `crypto.randomUUID()`
is modelled as an explicitly passed fresh id, following the design note that
id generation is an injected capability.  React `setDraft`/`setUndoStack`/
`setRedoStack` updates inside one handler are batched, so each handler is a
function from the editor state (draft + both history stacks) to a new state.
-/

/-- JavaScript string, modelled as a list of characters. -/
abbrev Str := List Char

/-- Coerce a Lean string literal to the `Str` model. -/
def str (s : String) : Str := s.data

/-- One clause record (`DraftSection` in `TemplateBuilder.tsx`):
`{ id, title, required, content }`. -/
structure DraftSection where
  id : Str
  title : Str
  required : Bool
  content : Str
deriving DecidableEq, Repr

/-- Direction argument of `moveBlock`: `'up' | 'down'`. -/
inductive Direction where
  | up
  | down
deriving DecidableEq, Repr

/-- Function `moveBlock(index, direction)` (TemplateBuilder.tsx lines 142-155): the
`setDraft` updater returns `prev` unchanged at a boundary
(`up` at index 0, `down` at the last index), otherwise swaps the entries at
`index` and its neighbour via array destructuring
`[next[index], next[targetIndex]] = [next[targetIndex], next[index]]`.
Indices are `Nat`; for a non-empty draft and an in-range index this matches
the source exactly (the source is only invoked with in-range indices from
the rendered list; the catch-all arm totalises the out-of-range case). -/
def moveBlock (draft : List DraftSection) (index : Nat) (direction : Direction) : List DraftSection :=
  if (direction = Direction.up ∧ index = 0) ∨
     (direction = Direction.down ∧ index = draft.length - 1) then
    draft
  else
    let targetIndex := match direction with
      | Direction.up => index - 1
      | Direction.down => index + 1
    match draft[index]?, draft[targetIndex]? with
    | some vi, some vt => (draft.set index vt).set targetIndex vi
    | _, _ => draft

/-- Handler `handleAddSection` (lines 157-167): appends a new section with a fresh
id, title `"New Section"`, `required: false` and empty content.  The fresh
id (`crypto.randomUUID()`) is an explicit argument. -/
def handleAddSection (draft : List DraftSection) (freshId : Str) : List DraftSection :=
  draft ++ [{ id := freshId, title := str "New Section", required := false, content := [] }]

/-- Handler `handleDuplicate(section)` (lines 169-178): appends
`{ ...section, id: crypto.randomUUID(), title: section.title + " Copy" }`. -/
def handleDuplicate (draft : List DraftSection) (sec : DraftSection) (freshId : Str) :
    List DraftSection :=
  draft ++ [{ sec with id := freshId, title := sec.title ++ str " Copy" }]

/-- Function `updateClauseContent(sectionId, content)` (lines 212-216): maps over the
draft replacing the content of the section whose id matches. -/
def updateClauseContent (draft : List DraftSection) (sectionId : Str) (content : Str) :
    List DraftSection :=
  draft.map fun s => if s.id = sectionId then { s with content := content } else s

/-- The inline title `onChange` handler (lines 773-779):
`prev.map((s) => s.id === block.id ? { ...s, title: e.target.value } : s)`. -/
def updateClauseTitle (draft : List DraftSection) (sectionId : Str) (title : Str) :
    List DraftSection :=
  draft.map fun s => if s.id = sectionId then { s with title := title } else s

/-- The inline `required` checkbox `onChange` handler (lines 837-843):
`prev.map((s) => s.id === block.id ? { ...s, required: e.target.checked } : s)`. -/
def updateClauseRequired (draft : List DraftSection) (sectionId : Str) (req : Bool) :
    List DraftSection :=
  draft.map fun s => if s.id = sectionId then { s with required := req } else s

/-- The editor state held by the component: the draft plus the two history
stacks (`undoStack` oldest-first, `redoStack` nearest-first). -/
structure EditorState where
  draft : List DraftSection
  undoStack : List (List DraftSection)
  redoStack : List (List DraftSection)
deriving DecidableEq, Repr

/-- Function `saveToUndoStack` (lines 191-194): pushes the current draft onto the end
of `undoStack` and clears `redoStack`.  This is the `recordBeforeEdit` of the
specification. -/
def saveToUndoStack (st : EditorState) : EditorState :=
  { st with undoStack := st.undoStack ++ [st.draft], redoStack := [] }

/-- Handler `handleUndo` (lines 196-202): no-op on an empty `undoStack`; otherwise
pops `undoStack[undoStack.length - 1]`, pushes the current draft onto the
front of `redoStack`, and installs the popped snapshot as the draft. -/
def handleUndo (st : EditorState) : EditorState :=
  match st.undoStack.getLast? with
  | none => st
  | some previous =>
      { draft := previous
        undoStack := st.undoStack.dropLast
        redoStack := st.draft :: st.redoStack }

/-- Handler `handleRedo` (lines 204-210): no-op on an empty `redoStack`; otherwise
pops `redoStack[0]`, pushes the current draft onto the end of `undoStack`,
and installs the popped snapshot as the draft. -/
def handleRedo (st : EditorState) : EditorState :=
  match st.redoStack with
  | [] => st
  | next :: rest =>
      { draft := next
        undoStack := st.undoStack ++ [st.draft]
        redoStack := rest }

/-- Replacing the draft with a new value (a plain `setDraft(s1)`), used to
model "mutate to S1" after `recordBeforeEdit`. -/
def setDraft (st : EditorState) (d : List DraftSection) : EditorState :=
  { st with draft := d }

/-- Handler `handleRemove(sectionId)` (lines 344-347): unconditionally calls
`saveToUndoStack()` and then filters the section with the given id out of
the draft.  Note the history push happens whether or not the id is present. -/
def handleRemove (st : EditorState) (sectionId : Str) : EditorState :=
  let st1 := saveToUndoStack st
  { st1 with draft := st1.draft.filter fun s => s.id ≠ sectionId }

/-- State-level `handleAddSection`: the handler only calls `setDraft`, so the
history stacks are untouched. -/
def handleAddSectionState (st : EditorState) (freshId : Str) : EditorState :=
  { st with draft := handleAddSection st.draft freshId }

/-- State-level `handleDuplicate`: the handler only calls `setDraft`. -/
def handleDuplicateState (st : EditorState) (sec : DraftSection) (freshId : Str) : EditorState :=
  { st with draft := handleDuplicate st.draft sec freshId }

/-- State-level `moveBlock`: the handler only calls `setDraft`. -/
def moveBlockState (st : EditorState) (index : Nat) (direction : Direction) : EditorState :=
  { st with draft := moveBlock st.draft index direction }

/-- State-level `updateClauseContent`: only calls `setDraft`. -/
def updateClauseContentState (st : EditorState) (sectionId : Str) (content : Str) : EditorState :=
  { st with draft := updateClauseContent st.draft sectionId content }

/-- State-level title update: only calls `setDraft`. -/
def updateClauseTitleState (st : EditorState) (sectionId : Str) (title : Str) : EditorState :=
  { st with draft := updateClauseTitle st.draft sectionId title }

/-- State-level `required` update: only calls `setDraft`. -/
def updateClauseRequiredState (st : EditorState) (sectionId : Str) (req : Bool) : EditorState :=
  { st with draft := updateClauseRequired st.draft sectionId req }

/-- JavaScript `value.slice(a, b)` for `Nat` arguments: JavaScript clamps both bounds
into range and yields `""` when `a >= b`, which is exactly what `Nat`
truncated subtraction with `take`/`drop` gives. -/
def jsSlice (value : Str) (a b : Nat) : Str :=
  (value.drop a).take (b - a)

/-- Result of one selection-relative transform:
`(newBuffer, newSelectionStart, newSelectionEnd)`. -/
abbrev TransformResult := Str × Nat × Nat

/-- Transform `wrapSelection(wrapper)` (lines 255-268): splits the buffer at the
selection, re-assembles it as
`before + wrapper + selected + wrapper + after`, and shifts both selection
bounds by `wrapper.length`. -/
def wrapSelection (wrapper : Str) (value : Str) (selectionStart selectionEnd : Nat) :
    TransformResult :=
  let before := value.take selectionStart
  let selected := jsSlice value selectionStart selectionEnd
  let after := value.drop selectionEnd
  let newText := before ++ wrapper ++ selected ++ wrapper ++ after
  let offset := wrapper.length
  (newText, selectionStart + offset, selectionEnd + offset)

/-- The whitespace class of JavaScript `String.prototype.trim` (the
characters relevant to clause text; `trim` also strips a few other Unicode
space code points that never occur in these buffers). -/
def isJsSpace (c : Char) : Bool :=
  c == ' ' || c == '\t' || c == '\n' || c == '\r' ||
  c == '\x0b' || c == '\x0c' || c == ' '

/-- Bullet flavour argument of `insertBullets`: `'bulleted' | 'numbered'`. -/
inductive BulletType where
  | bulleted
  | numbered
deriving DecidableEq, Repr

/-- Decimal rendering of a number, as JavaScript template interpolation
`${index + 1}` produces it. -/
def natToStr (n : Nat) : Str := (Nat.repr n).data

/-- The per-line formatter inside `insertBullets` (lines 276-283):
`line.trim().length ? line : 'Clause text'`, then prefixed with `• ` or
with `${index + 1}. `. -/
def formatLine (bulletType : BulletType) (index : Nat) (line : Str) : Str :=
  let content := if line.any (fun c => !isJsSpace c) then line else str "Clause text"
  match bulletType with
  | BulletType.bulleted => str "• " ++ content
  | BulletType.numbered => natToStr (index + 1) ++ str ". " ++ content

/-- Transform `insertBullets(bulletType)` (lines 270-293): splits the selected text on
`'\n'`, formats each line with `formatLine`, rejoins with `'\n'`, splices the
block in place of the selection, and selects exactly the inserted block.
JavaScript `"".split('\n')` is `[""]`, matching `List.splitOn` on `[]`. -/
def insertBullets (bulletType : BulletType) (value : Str) (selectionStart selectionEnd : Nat) :
    TransformResult :=
  let before := value.take selectionStart
  let selected := jsSlice value selectionStart selectionEnd
  let after := value.drop selectionEnd
  let lines := selected.splitOn '\n'
  let formattedLines := lines.mapIdx fun index line => formatLine bulletType index line
  let insertion := List.intercalate (str "\n") formattedLines
  let newText := before ++ insertion ++ after
  let start := before.length
  (newText, start, start + insertion.length)

/-- Transform `insertHeading(level)` (lines 295-311): substitutes the placeholder
`"Heading"` for an empty selection (`value.slice(...) || 'Heading'`),
prefixes it with `## ` (level 2) or `### ` (otherwise), splices it in place
of the selection, and selects the prefixed text. -/
def insertHeading (level : Nat) (value : Str) (selectionStart selectionEnd : Nat) :
    TransformResult :=
  let before := value.take selectionStart
  let selected0 := jsSlice value selectionStart selectionEnd
  let selected := if selected0 = [] then str "Heading" else selected0
  let after := value.drop selectionEnd
  let pre := if level = 2 then str "## " else str "### "
  let newText := before ++ pre ++ selected ++ after
  let start := before.length
  (newText, start, start + pre.length + selected.length)

/-- The toolbar action argument of `handleToolbarAction` (lines 313-343). -/
inductive ToolbarAction where
  | bold
  | italic
  | underline
  | bullet
  | numbered
  | h2
  | h3
deriving DecidableEq, Repr

/-- The `switch` of `handleToolbarAction`, dispatching to the transform with
the markers from the source: bold `**`, italic `*`, underline `__`. -/
def applyToolbar (action : ToolbarAction) (value : Str) (selectionStart selectionEnd : Nat) :
    TransformResult :=
  match action with
  | ToolbarAction.bold => wrapSelection (str "**") value selectionStart selectionEnd
  | ToolbarAction.italic => wrapSelection (str "*") value selectionStart selectionEnd
  | ToolbarAction.underline => wrapSelection (str "__") value selectionStart selectionEnd
  | ToolbarAction.bullet => insertBullets BulletType.bulleted value selectionStart selectionEnd
  | ToolbarAction.numbered => insertBullets BulletType.numbered value selectionStart selectionEnd
  | ToolbarAction.h2 => insertHeading 2 value selectionStart selectionEnd
  | ToolbarAction.h3 => insertHeading 3 value selectionStart selectionEnd

/-- Handler `handleToolbarAction` at state level (lines 313-343, together with
`withActiveTextArea`, lines 218-253): returns unchanged when the draft is
empty (the `canEdit` role check is outside the editing core and assumed
granted); otherwise `saveToUndoStack()` runs first, and then the transform
is applied to the content of the target clause (the active clause, or the
first clause when none is active) through `updateClauseContent`.  When the
target id resolves to no clause the draft is left as-is, but the history
push has already happened. -/
def handleToolbarAction (st : EditorState) (targetId : Str)
    (selectionStart selectionEnd : Nat) (action : ToolbarAction) : EditorState :=
  if st.draft.length = 0 then st
  else
    let st1 := saveToUndoStack st
    match st1.draft.find? (fun s => s.id = targetId) with
    | none => st1
    | some c =>
        let r := applyToolbar action c.content selectionStart selectionEnd
        { st1 with draft := updateClauseContent st1.draft targetId r.1 }

example : wrapSelection (str "**") (str "Hello") 0 5 = (str "**Hello**", 2, 7) := by decide

example : insertBullets BulletType.numbered (str "a\nb") 0 3 = (str "1. a\n2. b", 0, 9) := by
  decide

/-- The `(.+?)close` part of a pattern `open(.+?)close`: looks, at the
current point of the buffer, for the shortest non-empty newline-free text
`x` followed by `close` (JavaScript `.` does not match `'\n'`, and a
non-greedy `+?` tries shorter captures first); returns the capture and the
remainder after `close`. -/
def matchClose (close : Str) : Str → Option (Str × Str)
  | [] => none
  | c :: cs =>
    if c = '\n' then none
    else if close.isPrefixOf cs then some ([c], cs.drop close.length)
    else
      match matchClose close cs with
      | some (x, rest) => some (c :: x, rest)
      | none => none

/-- One global-replace pass for a pattern `tok(.+?)tok` with replacement
`openR$1closeR` (the shape of the `**`, `*` and `__` passes of
`renderMarkdown`, lines 349-360): scan left to right; at a position where
`tok` matches and a shortest capture closes, emit the replacement and
continue after the match; otherwise emit one character and move on.  The
first argument is recursion fuel: every step both consumes one unit and
strictly shortens the buffer, so fuel equal to the buffer length (as
supplied by `replaceWrap`) never runs out. -/
def replaceWrapAux (tok openR closeR : Str) : Nat → Str → Str
  | 0, s => s
  | _ + 1, [] => []
  | fuel + 1, c :: cs =>
    if tok.isPrefixOf (c :: cs) then
      match matchClose tok ((c :: cs).drop tok.length) with
      | some (x, rest) => openR ++ x ++ closeR ++ replaceWrapAux tok openR closeR fuel rest
      | none => c :: replaceWrapAux tok openR closeR fuel cs
    else c :: replaceWrapAux tok openR closeR fuel cs

/-- Global replacement of `tok(.+?)tok` by `openR$1closeR` over a buffer. -/
def replaceWrap (tok openR closeR : Str) (s : Str) : Str :=
  replaceWrapAux tok openR closeR s.length s

/-- Apply a per-line rewrite across the whole buffer: a multiline-anchored
regex `^...$` whose pattern cannot cross `'\n'` and whose replacement has no
newline acts independently on each `'\n'`-separated line. -/
def mapLines (f : Str → Str) (s : Str) : Str :=
  List.intercalate (str "\n") ((s.splitOn '\n').map f)

/-- The paragraph-opening tag of `renderMarkdown`. -/
def pTag : Str := str "<p class=\"mb-3\">"

/-- The `^## (.+)$` pass (line 353): a line starting with `## ` followed by
at least one character becomes an `<h2 ...>` element around the remainder. -/
def h2Line (line : Str) : Str :=
  if ((str "## ").isPrefixOf line) ∧ line.drop 3 ≠ [] then
    str "<h2 class=\"text-xl font-bold mt-6 mb-3 text-slate-900 dark:text-white\">" ++
      line.drop 3 ++ str "</h2>"
  else line

/-- The `^### (.+)$` pass (line 354). -/
def h3Line (line : Str) : Str :=
  if ((str "### ").isPrefixOf line) ∧ line.drop 4 ≠ [] then
    str "<h3 class=\"text-lg font-semibold mt-4 mb-2 text-slate-800 dark:text-slate-100\">" ++
      line.drop 4 ++ str "</h3>"
  else line

/-- The `^• (.+)$` pass (line 355). -/
def bulletLine (line : Str) : Str :=
  if ((str "• ").isPrefixOf line) ∧ line.drop (str "• ").length ≠ [] then
    str "<li class=\"ml-6\">" ++ line.drop (str "• ").length ++ str "</li>"
  else line

/-- The `^\d+\. (.+)$` pass (line 356): one or more digits, then `. `, then
at least one character. -/
def numberedLine (line : Str) : Str :=
  let digits := line.takeWhile Char.isDigit
  let rest := line.drop digits.length
  if digits ≠ [] ∧ ((str ". ").isPrefixOf rest) ∧ rest.drop 2 ≠ [] then
    str "<li class=\"ml-6\">" ++ rest.drop 2 ++ str "</li>"
  else line

/-- The `\n\n` → `</p><p class="mb-3">` pass (line 357): leftmost,
non-overlapping global replacement of two consecutive newlines. -/
def paragraphBreakPass : Str → Str
  | '\n' :: '\n' :: rest => str "</p><p class=\"mb-3\">" ++ paragraphBreakPass rest
  | c :: rest => c :: paragraphBreakPass rest
  | [] => []

/-- The final `^(?!<[h|l])` pass (line 358): at each line start not followed
by `<` and one of the characters `h`, `|`, `l` (the character class of the
source regex), insert the paragraph-opening tag. -/
def finalParagraphLine (line : Str) : Str :=
  match line with
  | '<' :: c :: rest =>
      if c = 'h' ∨ c = '|' ∨ c = 'l' then '<' :: c :: rest
      else pTag ++ '<' :: c :: rest
  | other => pTag ++ other

/-- Renderer `renderMarkdown` (lines 349-360): the chained `.replace` passes in source
order — strong (`**`), emphasis (`*`), underline (`__`), `h2`, `h3`, bullet
list item, numbered list item, paragraph break, paragraph opener. -/
def renderMarkdown (text : Str) : Str :=
  let s1 := replaceWrap (str "**") (str "<strong>") (str "</strong>") text
  let s2 := replaceWrap (str "*") (str "<em>") (str "</em>") s1
  let s3 := replaceWrap (str "__") (str "<u>") (str "</u>") s2
  let s4 := mapLines h2Line s3
  let s5 := mapLines h3Line s4
  let s6 := mapLines bulletLine s5
  let s7 := mapLines numberedLine s6
  let s8 := paragraphBreakPass s7
  mapLines finalParagraphLine s8

/-- Substring test: does `pat` occur contiguously inside the buffer? -/
def hasSubstr (pat : Str) : Str → Bool
  | [] => pat.isEmpty
  | c :: cs => pat.isPrefixOf (c :: cs) || hasSubstr pat cs

example : renderMarkdown (str "**bold**") = pTag ++ str "<strong>bold</strong>" := by decide

/-- A concrete clause used to instantiate hypotheses at witness inputs. -/
def sectionA : DraftSection :=
  { id := str "a", title := str "A", required := false, content := str "Hello" }

/-- A second concrete clause with a distinct id. -/
def sectionB : DraftSection :=
  { id := str "b", title := str "B", required := true, content := str "World" }

/-- A third concrete clause with a distinct id. -/
def sectionC : DraftSection :=
  { id := str "c", title := str "C", required := false, content := [] }

/-- C1: an edit performed as `recordBeforeEdit` (`saveToUndoStack`) followed
by replacing the draft with `s1` is inverted exactly by `handleUndo`: the
undo pops the recorded snapshot off `undoStack` and pushes the current draft
onto the front of `redoStack`; a subsequent `handleRedo` restores `s1`, a
further `handleUndo` again restores the original draft, and both `handleUndo`
and `handleRedo` are no-ops on an empty `undoStack` / `redoStack`. -/
theorem undo_redo_edit_roundtrip (st0 : EditorState) (s1 : List DraftSection)
    (stA stB : EditorState) (hA : stA.undoStack = []) (hB : stB.redoStack = []) :
    (handleUndo (setDraft (saveToUndoStack st0) s1)).draft = st0.draft ∧
    handleUndo (setDraft (saveToUndoStack st0) s1) =
      { draft := st0.draft, undoStack := st0.undoStack, redoStack := [s1] } ∧
    (handleRedo (handleUndo (setDraft (saveToUndoStack st0) s1))).draft = s1 ∧
    (handleUndo (handleRedo (handleUndo (setDraft (saveToUndoStack st0) s1)))).draft =
      st0.draft ∧
    handleUndo stA = stA ∧ handleRedo stB = stB := by
  obtain ⟨d0, u0, r0⟩ := st0
  obtain ⟨dA, uA, rA⟩ := stA
  obtain ⟨dB, uB, rB⟩ := stB
  simp only at hA hB
  subst hA hB
  refine ⟨?_, ?_, ?_, ?_, ?_, ?_⟩ <;>
    simp [setDraft, saveToUndoStack, handleUndo, handleRedo,
      List.getLast?_concat, List.dropLast_concat]

/-- C1 witness: the round-trip at a concrete two-clause draft edited down to
one clause, with concrete empty-stack states for the no-op parts. -/
theorem undo_redo_edit_roundtrip_witness :
    (EditorState.mk [sectionA] [] [[sectionB]]).undoStack = [] ∧
    (EditorState.mk [sectionB] [[sectionA]] []).redoStack = [] ∧
    ((handleUndo (setDraft (saveToUndoStack
        (EditorState.mk [sectionA, sectionB] [] [])) [sectionA])).draft =
      (EditorState.mk [sectionA, sectionB] [] []).draft ∧
    handleUndo (setDraft (saveToUndoStack
        (EditorState.mk [sectionA, sectionB] [] [])) [sectionA]) =
      { draft := [sectionA, sectionB], undoStack := [], redoStack := [[sectionA]] } ∧
    (handleRedo (handleUndo (setDraft (saveToUndoStack
        (EditorState.mk [sectionA, sectionB] [] [])) [sectionA]))).draft = [sectionA] ∧
    (handleUndo (handleRedo (handleUndo (setDraft (saveToUndoStack
        (EditorState.mk [sectionA, sectionB] [] [])) [sectionA])))).draft =
      (EditorState.mk [sectionA, sectionB] [] []).draft ∧
    handleUndo (EditorState.mk [sectionA] [] [[sectionB]]) =
      EditorState.mk [sectionA] [] [[sectionB]] ∧
    handleRedo (EditorState.mk [sectionB] [[sectionA]] []) =
      EditorState.mk [sectionB] [[sectionA]] []) :=
  ⟨rfl, rfl,
    undo_redo_edit_roundtrip (EditorState.mk [sectionA, sectionB] [] []) [sectionA]
      (EditorState.mk [sectionA] [] [[sectionB]])
      (EditorState.mk [sectionB] [[sectionA]] []) rfl rfl⟩

/-- C10: whenever `undoStack` is non-empty, `handleUndo` then `handleRedo`
restores the complete editor state (draft and both stacks); whenever
`redoStack` is non-empty, `handleRedo` then `handleUndo` restores it too. -/
theorem undo_redo_state_inverse (st : EditorState) :
    (st.undoStack ≠ [] → handleRedo (handleUndo st) = st) ∧
    (st.redoStack ≠ [] → handleUndo (handleRedo st) = st) := by
  obtain ⟨d, u, r⟩ := st
  constructor
  · intro h
    simp only at h
    rcases List.eq_nil_or_concat u with rfl | ⟨u', p, rfl⟩
    · exact absurd rfl h
    · simp [handleUndo, handleRedo, List.getLast?_concat, List.dropLast_concat]
  · intro h
    simp only at h
    obtain ⟨x, r', rfl⟩ := List.exists_cons_of_ne_nil h
    simp [handleUndo, handleRedo, List.getLast?_concat, List.dropLast_concat]

/-- C10 witness: the double round-trip at a concrete state with both stacks
non-empty. -/
theorem undo_redo_state_inverse_witness :
    (EditorState.mk [sectionA] [[sectionB]] [[sectionC]]).undoStack ≠ [] ∧
    (EditorState.mk [sectionA] [[sectionB]] [[sectionC]]).redoStack ≠ [] ∧
    handleRedo (handleUndo (EditorState.mk [sectionA] [[sectionB]] [[sectionC]])) =
      EditorState.mk [sectionA] [[sectionB]] [[sectionC]] ∧
    handleUndo (handleRedo (EditorState.mk [sectionA] [[sectionB]] [[sectionC]])) =
      EditorState.mk [sectionA] [[sectionB]] [[sectionC]] :=
  ⟨by decide, by decide,
    (undo_redo_state_inverse (EditorState.mk [sectionA] [[sectionB]] [[sectionC]])).1
      (by decide),
    (undo_redo_state_inverse (EditorState.mk [sectionA] [[sectionB]] [[sectionC]])).2
      (by decide)⟩

/-- C9: `handleRemove` with an id absent from the draft still pushes the
current draft onto `undoStack` and clears `redoStack` — the not-found no-op
changes only the history state, and the subsequent `handleUndo` restores an
identical draft. -/
theorem remove_not_found_still_records_history (st : EditorState) (sectionId : Str)
    (h : ∀ c ∈ st.draft, c.id ≠ sectionId) :
    (handleRemove st sectionId).draft = st.draft ∧
    (handleRemove st sectionId).undoStack = st.undoStack ++ [st.draft] ∧
    (handleRemove st sectionId).redoStack = [] ∧
    (handleUndo (handleRemove st sectionId)).draft = st.draft := by
  have hfilter : st.draft.filter (fun s => s.id ≠ sectionId) = st.draft := by
    rw [List.filter_eq_self]
    intro a ha
    simpa using h a ha
  refine ⟨?_, ?_, ?_, ?_⟩ <;>
    simp [handleRemove, saveToUndoStack, handleUndo, hfilter, List.getLast?_concat]
  all_goals exact h

/-- C9 witness: removing an id that is not present from a concrete
one-clause draft. -/
theorem remove_not_found_still_records_history_witness :
    (∀ c ∈ (EditorState.mk [sectionA] [] [[sectionB]]).draft, c.id ≠ str "zzz") ∧
    ((handleRemove (EditorState.mk [sectionA] [] [[sectionB]]) (str "zzz")).draft =
      [sectionA] ∧
    (handleRemove (EditorState.mk [sectionA] [] [[sectionB]]) (str "zzz")).undoStack =
      [[sectionA]] ∧
    (handleRemove (EditorState.mk [sectionA] [] [[sectionB]]) (str "zzz")).redoStack = [] ∧
    (handleUndo (handleRemove (EditorState.mk [sectionA] [] [[sectionB]]) (str "zzz"))).draft =
      [sectionA]) :=
  ⟨by decide,
    remove_not_found_still_records_history
      (EditorState.mk [sectionA] [] [[sectionB]]) (str "zzz") (by decide)⟩

/-- A reachable editor state with a non-empty `redoStack`: start from the
empty editor, add a clause, remove it, and undo the removal. -/
def undoneRemovalState : EditorState :=
  handleUndo (handleRemove
    (handleAddSectionState (EditorState.mk [] [] []) (str "a")) (str "a"))

/-- C2 counterexample: the claim says every non-undo/redo edit clears
`redoStack`, but `handleAddSection` (like duplicate, move and field updates)
only calls `setDraft` and never touches the stacks: in the reachable state
`undoneRemovalState` the `redoStack` is non-empty and stays non-empty after
adding a clause. -/
theorem add_section_does_not_clear_redo :
    undoneRemovalState.redoStack ≠ [] ∧
    (handleAddSectionState undoneRemovalState (str "b")).redoStack ≠ [] ∧
    (handleDuplicateState undoneRemovalState sectionA (str "b")).redoStack ≠ [] ∧
    (moveBlockState undoneRemovalState 0 Direction.up).redoStack ≠ [] ∧
    (updateClauseContentState undoneRemovalState (str "a") (str "x")).redoStack ≠ [] := by
  refine ⟨?_, ?_, ?_, ?_, ?_⟩ <;> decide

theorem moveBlock_eq_swap_up (draft : List DraftSection) (i : Nat)
    (h0 : 0 < i) (h : i < draft.length) :
    moveBlock draft i Direction.up = (draft.set i draft[i - 1]).set (i - 1) draft[i] := by
  have hcond : ¬ ((Direction.up = Direction.up ∧ i = 0) ∨
      (Direction.up = Direction.down ∧ i = draft.length - 1)) := by
    rintro (⟨-, h1⟩ | ⟨h2, -⟩)
    · omega
    · cases h2
  have h1 : i - 1 < draft.length := by omega
  have e : moveBlock draft i Direction.up =
      if (Direction.up = Direction.up ∧ i = 0) ∨
         (Direction.up = Direction.down ∧ i = draft.length - 1) then draft
      else
        match draft[i]?, draft[i - 1]? with
        | some vi, some vt => (draft.set i vt).set (i - 1) vi
        | _, _ => draft := rfl
  rw [e, if_neg hcond, List.getElem?_eq_getElem h, List.getElem?_eq_getElem h1]

theorem moveBlock_eq_swap_down (draft : List DraftSection) (i : Nat)
    (h : i + 1 < draft.length) :
    moveBlock draft i Direction.down = (draft.set i draft[i + 1]).set (i + 1) draft[i] := by
  have hcond : ¬ ((Direction.down = Direction.up ∧ i = 0) ∨
      (Direction.down = Direction.down ∧ i = draft.length - 1)) := by
    rintro (⟨h1, -⟩ | ⟨-, h2⟩)
    · cases h1
    · omega
  have h1 : i < draft.length := by omega
  have e : moveBlock draft i Direction.down =
      if (Direction.down = Direction.up ∧ i = 0) ∨
         (Direction.down = Direction.down ∧ i = draft.length - 1) then draft
      else
        match draft[i]?, draft[i + 1]? with
        | some vi, some vt => (draft.set i vt).set (i + 1) vi
        | _, _ => draft := rfl
  rw [e, if_neg hcond, List.getElem?_eq_getElem h1, List.getElem?_eq_getElem h]

theorem moveBlock_up_getElem? (draft : List DraftSection) (i : Nat)
    (h0 : 0 < i) (h : i < draft.length) (j : Nat) :
    (moveBlock draft i Direction.up)[j]? =
      if j = i then draft[i - 1]? else if j = i - 1 then draft[i]? else draft[j]? := by
  have h1 : i - 1 < draft.length := by omega
  rw [moveBlock_eq_swap_up draft i h0 h]
  rw [List.getElem?_set, List.getElem?_set, List.length_set]
  by_cases hji : j = i
  · rw [if_neg (show ¬ (i - 1 = j) by omega), if_pos hji.symm, if_pos h, if_pos hji,
      List.getElem?_eq_getElem h1]
  · by_cases hji1 : j = i - 1
    · rw [if_pos hji1.symm, if_pos h1, if_neg hji, if_pos hji1,
        List.getElem?_eq_getElem h]
    · rw [if_neg (fun hh => hji1 hh.symm), if_neg (fun hh => hji hh.symm),
        if_neg hji, if_neg hji1]

theorem moveBlock_down_getElem? (draft : List DraftSection) (i : Nat)
    (h : i + 1 < draft.length) (j : Nat) :
    (moveBlock draft i Direction.down)[j]? =
      if j = i then draft[i + 1]? else if j = i + 1 then draft[i]? else draft[j]? := by
  have h1 : i < draft.length := by omega
  rw [moveBlock_eq_swap_down draft i h]
  rw [List.getElem?_set, List.getElem?_set, List.length_set]
  by_cases hji : j = i
  · rw [if_neg (show ¬ (i + 1 = j) by omega), if_pos hji.symm, if_pos h1, if_pos hji,
      List.getElem?_eq_getElem h]
  · by_cases hji1 : j = i + 1
    · rw [if_pos hji1.symm, if_pos h, if_neg hji, if_pos hji1,
        List.getElem?_eq_getElem h1]
    · rw [if_neg (fun hh => hji1 hh.symm), if_neg (fun hh => hji hh.symm),
        if_neg hji, if_neg hji1]

theorem moveBlock_up_length (draft : List DraftSection) (i : Nat)
    (h0 : 0 < i) (h : i < draft.length) :
    (moveBlock draft i Direction.up).length = draft.length := by
  rw [moveBlock_eq_swap_up draft i h0 h]
  simp [List.length_set]

theorem moveBlock_down_length (draft : List DraftSection) (i : Nat)
    (h : i + 1 < draft.length) :
    (moveBlock draft i Direction.down).length = draft.length := by
  rw [moveBlock_eq_swap_down draft i h]
  simp [List.length_set]

/-- C5: `moveBlock` is a boundary no-op (first clause moving up, last clause
moving down) and otherwise a true swap with the immediate neighbour — the
two positions exchange their clauses and every other position is unchanged —
so moving a non-boundary clause up and then immediately down restores the
original draft exactly. -/
theorem moveClause_swap_spec (draft : List DraftSection) (i : Nat) (h : i < draft.length) :
    (i = 0 → moveBlock draft i Direction.up = draft) ∧
    (i = draft.length - 1 → moveBlock draft i Direction.down = draft) ∧
    (0 < i →
      (moveBlock draft i Direction.up).length = draft.length ∧
      (moveBlock draft i Direction.up)[i]? = draft[i - 1]? ∧
      (moveBlock draft i Direction.up)[i - 1]? = draft[i]? ∧
      (∀ j, j ≠ i → j ≠ i - 1 → (moveBlock draft i Direction.up)[j]? = draft[j]?)) ∧
    (i + 1 < draft.length →
      (moveBlock draft i Direction.down).length = draft.length ∧
      (moveBlock draft i Direction.down)[i]? = draft[i + 1]? ∧
      (moveBlock draft i Direction.down)[i + 1]? = draft[i]? ∧
      (∀ j, j ≠ i → j ≠ i + 1 → (moveBlock draft i Direction.down)[j]? = draft[j]?)) ∧
    (0 < i → moveBlock (moveBlock draft i Direction.up) (i - 1) Direction.down = draft) := by
  refine ⟨?_, ?_, ?_, ?_, ?_⟩
  · intro h1
    simp [moveBlock, h1]
  · intro h1
    simp [moveBlock, h1]
  · intro h0
    refine ⟨moveBlock_up_length draft i h0 h, ?_, ?_, ?_⟩
    · rw [moveBlock_up_getElem? draft i h0 h, if_pos rfl]
    · rw [moveBlock_up_getElem? draft i h0 h, if_neg (by omega), if_pos rfl]
    · intro j hji hji1
      rw [moveBlock_up_getElem? draft i h0 h, if_neg hji, if_neg hji1]
  · intro hdown
    refine ⟨moveBlock_down_length draft i hdown, ?_, ?_, ?_⟩
    · rw [moveBlock_down_getElem? draft i hdown, if_pos rfl]
    · rw [moveBlock_down_getElem? draft i hdown, if_neg (by omega), if_pos rfl]
    · intro j hji hji1
      rw [moveBlock_down_getElem? draft i hdown, if_neg hji, if_neg hji1]
  · intro h0
    have hlen : (moveBlock draft i Direction.up).length = draft.length :=
      moveBlock_up_length draft i h0 h
    have hdown : i - 1 + 1 < (moveBlock draft i Direction.up).length := by
      rw [hlen]; omega
    have hXi : (moveBlock draft i Direction.up)[i]? = draft[i - 1]? := by
      rw [moveBlock_up_getElem? draft i h0 h i, if_pos rfl]
    have hXi1 : (moveBlock draft i Direction.up)[i - 1]? = draft[i]? := by
      rw [moveBlock_up_getElem? draft i h0 h (i - 1),
        if_neg (show ¬ (i - 1 = i) by omega), if_pos rfl]
    have hXj : ∀ j, j ≠ i → j ≠ i - 1 →
        (moveBlock draft i Direction.up)[j]? = draft[j]? := by
      intro j hj hj1
      rw [moveBlock_up_getElem? draft i h0 h j, if_neg hj, if_neg hj1]
    apply List.ext_getElem?
    intro j
    rw [moveBlock_down_getElem? _ _ hdown j]
    have hi : i - 1 + 1 = i := by omega
    rw [hi]
    by_cases hji1 : j = i - 1
    · rw [if_pos hji1, hXi, hji1]
    · by_cases hji : j = i
      · rw [if_neg hji1, if_pos hji, hXi1, hji]
      · rw [if_neg hji1, if_neg hji, hXj j hji hji1]

/-- C5 witness: the swap and the up-then-down restoration at index 2 of a
concrete three-clause draft. -/
theorem moveClause_swap_spec_witness :
    (2 : Nat) < ([sectionA, sectionB, sectionC] : List DraftSection).length ∧
    ((2 = 0 → moveBlock [sectionA, sectionB, sectionC] 2 Direction.up =
        [sectionA, sectionB, sectionC]) ∧
    (2 = ([sectionA, sectionB, sectionC] : List DraftSection).length - 1 →
      moveBlock [sectionA, sectionB, sectionC] 2 Direction.down =
        [sectionA, sectionB, sectionC]) ∧
    (0 < 2 →
      (moveBlock [sectionA, sectionB, sectionC] 2 Direction.up).length =
        ([sectionA, sectionB, sectionC] : List DraftSection).length ∧
      (moveBlock [sectionA, sectionB, sectionC] 2 Direction.up)[2]? =
        ([sectionA, sectionB, sectionC] : List DraftSection)[2 - 1]? ∧
      (moveBlock [sectionA, sectionB, sectionC] 2 Direction.up)[2 - 1]? =
        ([sectionA, sectionB, sectionC] : List DraftSection)[2]? ∧
      (∀ j, j ≠ 2 → j ≠ 2 - 1 →
        (moveBlock [sectionA, sectionB, sectionC] 2 Direction.up)[j]? =
          ([sectionA, sectionB, sectionC] : List DraftSection)[j]?)) ∧
    (2 + 1 < ([sectionA, sectionB, sectionC] : List DraftSection).length →
      (moveBlock [sectionA, sectionB, sectionC] 2 Direction.down).length =
        ([sectionA, sectionB, sectionC] : List DraftSection).length ∧
      (moveBlock [sectionA, sectionB, sectionC] 2 Direction.down)[2]? =
        ([sectionA, sectionB, sectionC] : List DraftSection)[2 + 1]? ∧
      (moveBlock [sectionA, sectionB, sectionC] 2 Direction.down)[2 + 1]? =
        ([sectionA, sectionB, sectionC] : List DraftSection)[2]? ∧
      (∀ j, j ≠ 2 → j ≠ 2 + 1 →
        (moveBlock [sectionA, sectionB, sectionC] 2 Direction.down)[j]? =
          ([sectionA, sectionB, sectionC] : List DraftSection)[j]?)) ∧
    (0 < 2 → moveBlock (moveBlock [sectionA, sectionB, sectionC] 2 Direction.up)
        (2 - 1) Direction.down = [sectionA, sectionB, sectionC])) :=
  ⟨by decide, moveClause_swap_spec [sectionA, sectionB, sectionC] 2 (by decide)⟩

/-- C2 as amended: toolbar markup transforms (on a non-empty draft) and
clause removal clear `redoStack` entirely; adding, duplicating and moving
clauses and mutating a clause field leave both history stacks unchanged, so
they do not clear `redoStack`. -/
theorem edit_operations_history_effect (st : EditorState)
    (targetId freshId sectionId : Str) (sec : DraftSection)
    (index selectionStart selectionEnd : Nat) (direction : Direction)
    (action : ToolbarAction) (content title : Str) (req : Bool)
    (hne : st.draft ≠ []) :
    (handleToolbarAction st targetId selectionStart selectionEnd action).redoStack = [] ∧
    (handleRemove st sectionId).redoStack = [] ∧
    (handleAddSectionState st freshId).undoStack = st.undoStack ∧
    (handleAddSectionState st freshId).redoStack = st.redoStack ∧
    (handleDuplicateState st sec freshId).undoStack = st.undoStack ∧
    (handleDuplicateState st sec freshId).redoStack = st.redoStack ∧
    (moveBlockState st index direction).undoStack = st.undoStack ∧
    (moveBlockState st index direction).redoStack = st.redoStack ∧
    (updateClauseContentState st sectionId content).undoStack = st.undoStack ∧
    (updateClauseContentState st sectionId content).redoStack = st.redoStack ∧
    (updateClauseTitleState st sectionId title).undoStack = st.undoStack ∧
    (updateClauseTitleState st sectionId title).redoStack = st.redoStack ∧
    (updateClauseRequiredState st sectionId req).undoStack = st.undoStack ∧
    (updateClauseRequiredState st sectionId req).redoStack = st.redoStack := by
  have hlen : st.draft.length ≠ 0 := by
    intro h0
    exact hne (List.eq_nil_of_length_eq_zero h0)
  refine ⟨?_, rfl, rfl, rfl, rfl, rfl, rfl, rfl, rfl, rfl, rfl, rfl, rfl, rfl⟩
  simp only [handleToolbarAction]
  rw [if_neg hlen]
  split <;> rfl

/-- C2 amended witness: the history effects at a concrete one-clause state
with a non-empty `redoStack`. -/
theorem edit_operations_history_effect_witness :
    (EditorState.mk [sectionA] [] [[sectionB]]).draft ≠ [] ∧
    ((handleToolbarAction (EditorState.mk [sectionA] [] [[sectionB]])
        (str "a") 0 0 ToolbarAction.bold).redoStack = [] ∧
    (handleRemove (EditorState.mk [sectionA] [] [[sectionB]]) (str "a")).redoStack = [] ∧
    (handleAddSectionState (EditorState.mk [sectionA] [] [[sectionB]])
        (str "b")).undoStack = (EditorState.mk [sectionA] [] [[sectionB]]).undoStack ∧
    (handleAddSectionState (EditorState.mk [sectionA] [] [[sectionB]])
        (str "b")).redoStack = (EditorState.mk [sectionA] [] [[sectionB]]).redoStack ∧
    (handleDuplicateState (EditorState.mk [sectionA] [] [[sectionB]]) sectionA
        (str "b")).undoStack = (EditorState.mk [sectionA] [] [[sectionB]]).undoStack ∧
    (handleDuplicateState (EditorState.mk [sectionA] [] [[sectionB]]) sectionA
        (str "b")).redoStack = (EditorState.mk [sectionA] [] [[sectionB]]).redoStack ∧
    (moveBlockState (EditorState.mk [sectionA] [] [[sectionB]]) 0
        Direction.up).undoStack = (EditorState.mk [sectionA] [] [[sectionB]]).undoStack ∧
    (moveBlockState (EditorState.mk [sectionA] [] [[sectionB]]) 0
        Direction.up).redoStack = (EditorState.mk [sectionA] [] [[sectionB]]).redoStack ∧
    (updateClauseContentState (EditorState.mk [sectionA] [] [[sectionB]]) (str "a")
        (str "x")).undoStack = (EditorState.mk [sectionA] [] [[sectionB]]).undoStack ∧
    (updateClauseContentState (EditorState.mk [sectionA] [] [[sectionB]]) (str "a")
        (str "x")).redoStack = (EditorState.mk [sectionA] [] [[sectionB]]).redoStack ∧
    (updateClauseTitleState (EditorState.mk [sectionA] [] [[sectionB]]) (str "a")
        (str "t")).undoStack = (EditorState.mk [sectionA] [] [[sectionB]]).undoStack ∧
    (updateClauseTitleState (EditorState.mk [sectionA] [] [[sectionB]]) (str "a")
        (str "t")).redoStack = (EditorState.mk [sectionA] [] [[sectionB]]).redoStack ∧
    (updateClauseRequiredState (EditorState.mk [sectionA] [] [[sectionB]]) (str "a")
        true).undoStack = (EditorState.mk [sectionA] [] [[sectionB]]).undoStack ∧
    (updateClauseRequiredState (EditorState.mk [sectionA] [] [[sectionB]]) (str "a")
        true).redoStack = (EditorState.mk [sectionA] [] [[sectionB]]).redoStack) :=
  ⟨by decide,
    edit_operations_history_effect (EditorState.mk [sectionA] [] [[sectionB]])
      (str "a") (str "b") (str "a") sectionA 0 0 0 Direction.up
      ToolbarAction.bold (str "x") (str "t") true (by decide)⟩

/-- C6: duplicating a clause of the draft appends a copy whose title is the
original title with `" Copy"` appended and whose id is the fresh id (distinct
from every existing id), with the `required` flag and content copied; every
original clause — the duplicated one included — keeps its fields and its
position. -/
theorem duplicateClause_spec (draft : List DraftSection) (sec : DraftSection) (freshId : Str)
    (hmem : sec ∈ draft) (hfresh : ∀ c ∈ draft, c.id ≠ freshId) :
    (handleDuplicate draft sec freshId).length = draft.length + 1 ∧
    (handleDuplicate draft sec freshId).take draft.length = draft ∧
    (∀ j, j < draft.length → (handleDuplicate draft sec freshId)[j]? = draft[j]?) ∧
    sec ∈ handleDuplicate draft sec freshId ∧
    (handleDuplicate draft sec freshId).getLast? =
      some { sec with id := freshId, title := sec.title ++ str " Copy" } ∧
    ({ sec with id := freshId, title := sec.title ++ str " Copy" } : DraftSection).required =
      sec.required ∧
    ({ sec with id := freshId, title := sec.title ++ str " Copy" } : DraftSection).content =
      sec.content ∧
    (∀ c ∈ draft,
      c.id ≠ ({ sec with id := freshId, title := sec.title ++ str " Copy" } : DraftSection).id) := by
  refine ⟨?_, ?_, ?_, ?_, ?_, rfl, rfl, ?_⟩
  · simp [handleDuplicate]
  · simp only [handleDuplicate]
    exact List.take_left draft _
  · intro j hj
    simp only [handleDuplicate]
    rw [List.getElem?_append, if_pos hj]
  · exact List.mem_append_left _ hmem
  · simp only [handleDuplicate]
    exact List.getLast?_concat draft
  · intro c hc
    exact hfresh c hc

/-- C6 witness: duplicating the first clause of a concrete two-clause draft
with a fresh id. -/
theorem duplicateClause_spec_witness :
    sectionA ∈ ([sectionA, sectionB] : List DraftSection) ∧
    (∀ c ∈ ([sectionA, sectionB] : List DraftSection), c.id ≠ str "z") ∧
    ((handleDuplicate [sectionA, sectionB] sectionA (str "z")).length =
      ([sectionA, sectionB] : List DraftSection).length + 1 ∧
    (handleDuplicate [sectionA, sectionB] sectionA (str "z")).take
      ([sectionA, sectionB] : List DraftSection).length = [sectionA, sectionB] ∧
    (∀ j, j < ([sectionA, sectionB] : List DraftSection).length →
      (handleDuplicate [sectionA, sectionB] sectionA (str "z"))[j]? =
        ([sectionA, sectionB] : List DraftSection)[j]?) ∧
    sectionA ∈ handleDuplicate [sectionA, sectionB] sectionA (str "z") ∧
    (handleDuplicate [sectionA, sectionB] sectionA (str "z")).getLast? =
      some { sectionA with id := str "z", title := sectionA.title ++ str " Copy" } ∧
    ({ sectionA with id := str "z", title := sectionA.title ++ str " Copy" } :
      DraftSection).required = sectionA.required ∧
    ({ sectionA with id := str "z", title := sectionA.title ++ str " Copy" } :
      DraftSection).content = sectionA.content ∧
    (∀ c ∈ ([sectionA, sectionB] : List DraftSection),
      c.id ≠
        ({ sectionA with id := str "z", title := sectionA.title ++ str " Copy" } :
          DraftSection).id)) :=
  ⟨by decide, by decide,
    duplicateClause_spec [sectionA, sectionB] sectionA (str "z") (by decide) (by decide)⟩

/-- C7: `handleRemove` is total; with an id matching no clause the draft is
returned unchanged, and with clause-unique ids it removes exactly the clause
carrying the id, preserving the relative order of the remaining clauses. -/
theorem removeClause_spec (st : EditorState) (sectionId : Str) :
    ((∀ c ∈ st.draft, c.id ≠ sectionId) → (handleRemove st sectionId).draft = st.draft) ∧
    (∀ l₁ c l₂, (st.draft.map DraftSection.id).Nodup →
      st.draft = l₁ ++ c :: l₂ → c.id = sectionId →
      (handleRemove st sectionId).draft = l₁ ++ l₂) := by
  constructor
  · intro h
    simp only [handleRemove, saveToUndoStack]
    rw [List.filter_eq_self]
    intro a ha
    simpa using h a ha
  · intro l₁ c l₂ hnd hsplit hcid
    have hnd' : c.id ∉ l₁.map DraftSection.id ∧ c.id ∉ l₂.map DraftSection.id := by
      rw [hsplit, List.map_append, List.map_cons] at hnd
      have hmid := List.nodup_middle.mp hnd
      have hnotmem := (List.nodup_cons.mp hmid).1
      constructor
      · intro hmem; exact hnotmem (List.mem_append_left _ hmem)
      · intro hmem; exact hnotmem (List.mem_append_right _ hmem)
    simp only [handleRemove, saveToUndoStack]
    rw [hsplit, List.filter_append, List.filter_cons]
    have hl1 : l₁.filter (fun s => decide (s.id ≠ sectionId)) = l₁ := by
      rw [List.filter_eq_self]
      intro a ha
      simp only [decide_eq_true_eq]
      intro heq
      have hida : a.id ∈ l₁.map DraftSection.id := List.mem_map_of_mem _ ha
      rw [heq, ← hcid] at hida
      exact hnd'.1 hida
    have hl2 : l₂.filter (fun s => decide (s.id ≠ sectionId)) = l₂ := by
      rw [List.filter_eq_self]
      intro a ha
      simp only [decide_eq_true_eq]
      intro heq
      have hida : a.id ∈ l₂.map DraftSection.id := List.mem_map_of_mem _ ha
      rw [heq, ← hcid] at hida
      exact hnd'.2 hida
    rw [if_neg (by simp [hcid]), hl1, hl2]

/-- C7 witness: removing an absent id from a one-clause draft, and removing
the middle clause of a three-clause draft with pairwise-distinct ids. -/
theorem removeClause_spec_witness :
    (∀ c ∈ (EditorState.mk [sectionA] [] []).draft, c.id ≠ str "zzz") ∧
    ((EditorState.mk [sectionA, sectionB, sectionC] [] []).draft.map
      DraftSection.id).Nodup ∧
    (handleRemove (EditorState.mk [sectionA] [] []) (str "zzz")).draft = [sectionA] ∧
    (handleRemove (EditorState.mk [sectionA, sectionB, sectionC] [] [])
      (str "b")).draft = [sectionA] ++ [sectionC] :=
  ⟨by decide, by decide,
    (removeClause_spec (EditorState.mk [sectionA] [] []) (str "zzz")).1 (by decide),
    (removeClause_spec (EditorState.mk [sectionA, sectionB, sectionC] [] [])
      (str "b")).2 [sectionA] sectionB [sectionC] (by decide) (by decide) (by decide)⟩

/-- C3: for a valid selection, `wrapSelection` returns the buffer with the
marker inserted immediately before `selectionStart` and immediately after
`selectionEnd` (`prefixPart ++ m ++ selected ++ m ++ suffixPart`), shifts
both selection bounds by the marker length, and the new selection covers
exactly the originally selected text between the markers. -/
theorem wrapSelection_spec (m value : Str) (s e : Nat)
    (h1 : s ≤ e) (h2 : e ≤ value.length) :
    (wrapSelection m value s e).1 =
      value.take s ++ m ++ jsSlice value s e ++ m ++ value.drop e ∧
    (wrapSelection m value s e).2.1 = s + m.length ∧
    (wrapSelection m value s e).2.2 = e + m.length ∧
    jsSlice (wrapSelection m value s e).1 (s + m.length) (e + m.length) =
      jsSlice value s e := by
  have hsel : (jsSlice value s e).length = e - s := by
    simp only [jsSlice, List.length_take, List.length_drop]
    omega
  refine ⟨rfl, rfl, rfl, ?_⟩
  show ((value.take s ++ m ++ jsSlice value s e ++ m ++ value.drop e).drop
      (s + m.length)).take ((e + m.length) - (s + m.length)) = jsSlice value s e
  have hsub : (e + m.length) - (s + m.length) = e - s := by omega
  rw [hsub]
  have harr : value.take s ++ m ++ jsSlice value s e ++ m ++ value.drop e =
      (value.take s ++ m) ++ (jsSlice value s e ++ (m ++ value.drop e)) := by
    simp [List.append_assoc]
  rw [harr]
  have hlen2 : (value.take s ++ m).length = s + m.length := by
    simp only [List.length_append, List.length_take]
    omega
  rw [List.drop_left' hlen2, ← hsel, List.take_left]

/-- C3 witness: wrapping the fully selected buffer `"Hello"` with the bold
marker yields `"**Hello**"` selected from index 2 to index 7. -/
theorem wrapSelection_spec_witness :
    (0 : Nat) ≤ 5 ∧ (5 : Nat) ≤ (str "Hello").length ∧
    wrapSelection (str "**") (str "Hello") 0 5 = (str "**Hello**", 2, 7) ∧
    ((wrapSelection (str "**") (str "Hello") 0 5).1 =
      (str "Hello").take 0 ++ str "**" ++ jsSlice (str "Hello") 0 5 ++ str "**" ++
        (str "Hello").drop 5 ∧
    (wrapSelection (str "**") (str "Hello") 0 5).2.1 = 0 + (str "**").length ∧
    (wrapSelection (str "**") (str "Hello") 0 5).2.2 = 5 + (str "**").length ∧
    jsSlice (wrapSelection (str "**") (str "Hello") 0 5).1 (0 + (str "**").length)
        (5 + (str "**").length) = jsSlice (str "Hello") 0 5) :=
  ⟨by decide, by decide, by decide,
    wrapSelection_spec (str "**") (str "Hello") 0 5 (by decide) (by decide)⟩

/-- C4: for a valid selection, the list transforms split the selected text
on newline, substitute the placeholder `"Clause text"` for every line with
no non-whitespace character and keep other lines as-is, prefix each line
with `• ` (bulleted) or with the 1-based index followed by `. ` (numbered),
rejoin with newline, splice the block in place of the selection, and the
returned selection spans exactly the inserted block. -/
theorem insertBullets_spec (bulletType : BulletType) (value : Str) (s e : Nat)
    (h1 : s ≤ e) (h2 : e ≤ value.length) :
    (insertBullets bulletType value s e).1 =
      value.take s ++
        List.intercalate (str "\n")
          (((jsSlice value s e).splitOn '\n').mapIdx (formatLine bulletType)) ++
        value.drop e ∧
    (insertBullets bulletType value s e).2.1 = s ∧
    (insertBullets bulletType value s e).2.2 =
      s + (List.intercalate (str "\n")
        (((jsSlice value s e).splitOn '\n').mapIdx (formatLine bulletType))).length ∧
    jsSlice (insertBullets bulletType value s e).1 s
        (s + (List.intercalate (str "\n")
          (((jsSlice value s e).splitOn '\n').mapIdx (formatLine bulletType))).length) =
      List.intercalate (str "\n")
        (((jsSlice value s e).splitOn '\n').mapIdx (formatLine bulletType)) ∧
    (∀ i line, (∀ c ∈ line, isJsSpace c = true) →
      formatLine BulletType.bulleted i line = str "• " ++ str "Clause text" ∧
      formatLine BulletType.numbered i line =
        natToStr (i + 1) ++ str ". " ++ str "Clause text") ∧
    (∀ i line c, c ∈ line → isJsSpace c = false →
      formatLine BulletType.bulleted i line = str "• " ++ line ∧
      formatLine BulletType.numbered i line = natToStr (i + 1) ++ str ". " ++ line) := by
  have htake : (value.take s).length = s := by
    simp only [List.length_take]
    omega
  refine ⟨rfl, htake, ?_, ?_, ?_, ?_⟩
  · show (value.take s).length + _ = s + _
    rw [htake]
  · rw [show (insertBullets bulletType value s e).1 =
        value.take s ++
          List.intercalate (str "\n")
            (((jsSlice value s e).splitOn '\n').mapIdx (formatLine bulletType)) ++
          value.drop e from rfl]
    rw [List.append_assoc, jsSlice, List.drop_left' htake]
    have hsub : ∀ L : Nat, (s + L) - s = L := by omega
    rw [hsub]
    exact List.take_left' rfl
  · intro i line hws
    have hany : line.any (fun c => !isJsSpace c) = false := by
      rw [List.any_eq_false]
      intro x hx
      simp [hws x hx]
    constructor <;> simp [formatLine, hany]
  · intro i line c hc hcs
    have hany : line.any (fun c => !isJsSpace c) = true := by
      rw [List.any_eq_true]
      exact ⟨c, hc, by simp [hcs]⟩
    constructor <;> simp [formatLine, hany]

/-- C4 witness: buffer `"a\nb"` fully selected with the numbered-list
transform yields `"1. a\n2. b"` with the block exactly selected, together
with the line-formatting facts at a whitespace-only and at a
non-whitespace line. -/
theorem insertBullets_spec_witness :
    (0 : Nat) ≤ 3 ∧ (3 : Nat) ≤ (str "a\nb").length ∧
    insertBullets BulletType.numbered (str "a\nb") 0 3 = (str "1. a\n2. b", 0, 9) ∧
    (insertBullets BulletType.numbered (str "a\nb") 0 3).2.1 = 0 ∧
    jsSlice (insertBullets BulletType.numbered (str "a\nb") 0 3).1 0
        (0 + (List.intercalate (str "\n")
          (((jsSlice (str "a\nb") 0 3).splitOn '\n').mapIdx
            (formatLine BulletType.numbered))).length) =
      List.intercalate (str "\n")
        (((jsSlice (str "a\nb") 0 3).splitOn '\n').mapIdx
          (formatLine BulletType.numbered)) ∧
    formatLine BulletType.bulleted 0 (str "  ") = str "• " ++ str "Clause text" ∧
    formatLine BulletType.numbered 1 (str "xy") = natToStr 2 ++ str ". " ++ str "xy" := by
  have h := insertBullets_spec BulletType.numbered (str "a\nb") 0 3 (by decide) (by decide)
  refine ⟨by decide, by decide, by decide, h.2.1, h.2.2.2.1, ?_, ?_⟩
  · exact (h.2.2.2.2.1 0 (str "  ") (by decide)).1
  · exact (h.2.2.2.2.2 1 (str "xy") 'x' (by decide) (by decide)).2

/-- C8: `renderMarkdown` applies its substitution passes in source order,
the strong pass (`**`, non-greedy) before the emphasis pass (`*`); on the
input `"**bold**"` the output is the paragraph-opening tag followed by a
strong-emphasis element wrapping exactly `"bold"`, with no literal `**`
(indeed no `*` at all) remaining. -/
theorem renderMarkdown_bold_pass :
    (∀ t : Str, renderMarkdown t =
      mapLines finalParagraphLine (paragraphBreakPass (mapLines numberedLine
        (mapLines bulletLine (mapLines h3Line (mapLines h2Line
          (replaceWrap (str "__") (str "<u>") (str "</u>")
            (replaceWrap (str "*") (str "<em>") (str "</em>")
              (replaceWrap (str "**") (str "<strong>") (str "</strong>") t))))))))) ∧
    replaceWrap (str "**") (str "<strong>") (str "</strong>") (str "**bold**") =
      str "<strong>bold</strong>" ∧
    renderMarkdown (str "**bold**") = pTag ++ str "<strong>bold</strong>" ∧
    hasSubstr (str "<strong>bold</strong>") (renderMarkdown (str "**bold**")) = true ∧
    hasSubstr (str "**") (renderMarkdown (str "**bold**")) = false ∧
    hasSubstr (str "*") (renderMarkdown (str "**bold**")) = false :=
  ⟨fun _ => rfl, by decide, by decide, by decide, by decide, by decide⟩
